import Mathlib

/-!
Verification of the rosdoc2 documentation build pipeline.

This file gives a shallow embedding, in Lean 4, of the pure logic of the
rosdoc2 repository:

* `src/rosdoc2/verbs/build/standard_documents.py`
  (`locate_standard_documents`, `generate_standard_document_files`),
* `src/rosdoc2/verbs/build/include_user_docs.py` (`include_user_docs`),
* `src/rosdoc2/verbs/build/inspect_package_for_settings.py`
  (the settings resolution feeding `build_type`, `always_run_doxygen`,
  `always_run_sphinx_apidoc` and `ament_cmake_python`),
* `src/rosdoc2/verbs/build/builders/sphinx_builder.py`
  (`SphinxBuilder.build` and its helpers).

File-system interaction is modelled explicitly: directory listings, walk
results and inventory collections are inputs, and the functions return the
list of file-system effects (copies and writes) they would perform.
Subprocess return codes are inputs as well, and raised Python exceptions are
modelled with `Except`.
-/

namespace Rosdoc2

/-- Model of Python `os.path.splitext` for plain file names (no directory
separators): the extension starts at the last dot, unless every character
before that dot is itself a dot (so leading dots never start an extension). -/
def splitext (p : String) : String × String :=
  match p.data.reverse.findIdx? (fun c => c = '.') with
  | none => (p, "")
  | some j =>
    let i := p.data.length - 1 - j
    if (p.data.take i).all (fun c => c = '.') then (p, "")
    else (String.mk (p.data.take i), String.mk (p.data.drop i))

/-- ASCII lowering of one character, as Python `str.lower` acts on the
ASCII file names involved here. -/
def lowerChar (c : Char) : Char :=
  if 65 ≤ c.toNat ∧ c.toNat ≤ 90 then Char.ofNat (c.toNat + 32) else c

/-- Model of Python `str.lower` (ASCII range). -/
def sLower (s : String) : String :=
  String.mk (s.data.map lowerChar)

/-- ASCII raising of one character, as Python `str.upper` acts on the
ASCII document names involved here. -/
def upperChar (c : Char) : Char :=
  if 97 ≤ c.toNat ∧ c.toNat ≤ 122 then Char.ofNat (c.toNat - 32) else c

/-- Model of Python `str.upper` (ASCII range). -/
def sUpper (s : String) : String :=
  String.mk (s.data.map upperChar)

/-- One entry of `os.scandir`: the entry name and whether it is a regular
file (`is_file`); `os.scandir` lists only the direct children of the
directory, so files in subdirectories never appear in the listing. -/
structure DirEntry where
  name : String
  isFile : Bool
  deriving DecidableEq, Repr

/-- The per-document record stored by `locate_standard_documents`:
the dict with keys `path`, `filename` and `type`. -/
structure FoundDoc where
  path : String
  filename : String
  filetype : String
  deriving DecidableEq, Repr

/-- Lookup in an association list, modelling Python dict access keyed by
strings (the dict in `locate_standard_documents` is used in insertion
order, which the association list preserves). -/
def alookup (n : String) : List (String × FoundDoc) → Option FoundDoc
  | [] => none
  | (k, v) :: rest => if k = n then some v else alookup n rest

/-- The list `names` of `locate_standard_documents`
(`standard_documents.py` line 33). -/
def standardNames : List String :=
  [("readme"), ("license"), ("contributing"), ("changelog"), ("quality_declaration")]

/-- The `filetype` classification of `standard_documents.py` lines 44-50. -/
def filetypeFor (ext : String) : String :=
  if sLower ext = ".md" ∨ sLower ext = ".markdown" then ("md")
  else if sLower ext = ".rst" then ("rst")
  else ("other")

/-- The dict value built at `standard_documents.py` lines 51-55
(`item.path` of `os.scandir` is the directory joined with the entry name). -/
def docFor (dir itemName : String) : FoundDoc :=
  { path := dir ++ "/" ++ itemName
    filename := itemName
    filetype := filetypeFor (splitext itemName).2 }

/-- The body of the `for name in names` loop of `locate_standard_documents`
(lines 40-55): skip a name that is already recorded, record the entry under
`name` when the lowercased basename equals `name`. `b` is the lowercased
basename and `d` the record for the entry being examined. -/
def insertStep (b : String) (d : FoundDoc) (acc : List (String × FoundDoc)) (m : String) :
    List (String × FoundDoc) :=
  if (alookup m acc).isSome then acc
  else if b = m then acc ++ [(m, d)]
  else acc

/-- The body of the `for item in package_directory_items` loop
(`standard_documents.py` lines 36-55): non-files are skipped, files are
offered to each standard name in turn. -/
def recordItem (dir : String) (found : List (String × FoundDoc)) (item : DirEntry) :
    List (String × FoundDoc) :=
  if item.isFile = false then found
  else
    standardNames.foldl (insertStep (sLower (splitext item.name).1) (docFor dir item.name)) found

/-- `locate_standard_documents(package_xml_directory)`
(`standard_documents.py` lines 31-56), with the `os.scandir` listing passed
in as `items`. -/
def locate_standard_documents (dir : String) (items : List DirEntry) :
    List (String × FoundDoc) :=
  items.foldl (recordItem dir) []

/-- A file whose lowercased basename is the standard name `n`
(`standard_documents.py` line 43, restricted to regular files by line 37). -/
def matchesName (e : DirEntry) (n : String) : Bool :=
  e.isFile && decide (sLower (splitext e.name).1 = n)

/-- The record produced for the first listed file matching standard name `n`,
if any. -/
def firstMatch (dir : String) (items : List DirEntry) (n : String) : Option FoundDoc :=
  (items.find? (fun e => matchesName e n)).map (fun e => docFor dir e.name)

/-- A file-system effect performed by the build helpers: `os.makedirs`,
`shutil.copy`, `shutil.copytree`, or writing a file with given content. -/
inductive FsEffect where
  | mkdirp (path : String)
  | copy (src destDir : String)
  | copytree (src dest : String)
  | write (path content : String)
  deriving DecidableEq, Repr

/-- The `standard_documents_rst` template string
(`standard_documents.py` lines 19-28). -/
def standard_documents_rst : String :=
  "Standard Documents\n==================\n\n.. toctree::\n   :maxdepth: 1\n   :glob:\n\n   standard_docs/*\n"

/-- `generate_standard_document_files(standard_docs, wrapped_sphinx_directory)`
(`standard_documents.py` lines 59-91), returning the list of file-system
effects it performs, in order. Path joining is modelled with `/` and the
`os.path.abspath` normalisation is left implicit (paths are kept as given). -/
def generate_standard_document_files (standard_docs : List (String × FoundDoc))
    (wrapped_sphinx_directory : String) : List FsEffect :=
  let standards_sphinx_directory := wrapped_sphinx_directory ++ "/standard_docs"
  let standards_original_directory := standards_sphinx_directory ++ "/original"
  (if standard_docs.length ≠ 0 then
    [FsEffect.mkdirp standards_sphinx_directory,
     FsEffect.mkdirp standards_original_directory,
     FsEffect.write (wrapped_sphinx_directory ++ "/standards.rst") standard_documents_rst]
  else [])
  ++ standard_docs.flatMap (fun kd =>
    let key := kd.1
    let standard_doc := kd.2
    let header := sUpper key ++ "\n" ++ String.mk (List.replicate key.length ')') ++ "\n\n"
    let file_path := "original/" ++ standard_doc.filename
    let body :=
      if standard_doc.filetype = "rst" then ".. include:: " ++ file_path ++ "\n"
      else if standard_doc.filetype = "md" then
        ".. include:: " ++ file_path ++ "\n" ++ "   :parser: myst_parser.sphinx_\n"
      else ".. literalinclude:: " ++ file_path ++ "\n"
    [FsEffect.copy standard_doc.path standards_original_directory,
     FsEffect.write (standards_sphinx_directory ++ "/" ++ sUpper key ++ ".rst")
       (header ++ body)])

/-- The `documentation_rst_template` of `include_user_docs.py` lines 23-32,
with the format map applied. -/
def documentation_rst (sphinx_project_directory : String) : String :=
  "Documentation\n=============\n\n.. toctree::\n   :maxdepth: 1\n   :glob:\n\n   "
    ++ sphinx_project_directory ++ "/*\n"

/-- The `subdirectory_rst_template` of `include_user_docs.py` lines 34-44,
with the format map applied (`name_underline` is `len(name)` equal signs,
followed by one more in the template). -/
def subdirectory_rst (name sphinx_project_directory : String) : String :=
  name ++ "/\n" ++ String.mk (List.replicate name.length '=') ++ "=\n\n.. toctree::\n"
    ++ "   :caption: Documentation in this subdirectory\n   :maxdepth: 2\n   :glob:\n\n   "
    ++ sphinx_project_directory ++ "/" ++ name ++ "/*\n"

/-- The renderable-extension test of `include_user_docs.py` line 61; the
comparison is case-sensitive. -/
def renderableExt (ext : String) : Bool :=
  [(".rst"), (".md"), (".markdown")].contains ext

/-- `include_user_docs(sphinx_project_directory, output_dir,
package_xml_directory)` (`include_user_docs.py` lines 47-102). The `os.walk`
of the user documentation directory is passed in as `walk`, a list of
`(root, files)` pairs in walk order, and `relpath` and `slugify` stand for
`os.path.relpath` and `rosdoc2.slugify.slugify`. Returns the
`doc_directories` result together with the file-system effects performed.
The inner `for file in files` loop appends `relpath(root, user_doc_directory)`
at the first renderable file and breaks, so a root contributes exactly once
when some file in it is renderable. -/
def include_user_docs (sphinx_project_directory output_dir package_xml_directory : String)
    (walk : List (String × List String)) (relpath : String → String → String)
    (slugify : String → String) : List String × List FsEffect :=
  let user_doc_directory := package_xml_directory ++ "/" ++ sphinx_project_directory
  let doc_directories := walk.flatMap (fun rootFiles =>
    if rootFiles.2.any (fun file => renderableExt (splitext file).2) then
      [relpath rootFiles.1 user_doc_directory]
    else [])
  if doc_directories.isEmpty then (doc_directories, [])
  else
    let copyEffect := FsEffect.copytree
      (package_xml_directory ++ "/" ++ sphinx_project_directory)
      (output_dir ++ "/" ++ sphinx_project_directory)
    let tocStart := documentation_rst sphinx_project_directory
    let stepped := doc_directories.foldl (fun (acc : String × List FsEffect) relp =>
      if relp = "." then acc
      else
        let docname := "user_docs_" ++ slugify relp
        (acc.1 ++ "   " ++ relp ++ "/ <" ++ docname ++ ">\n",
         acc.2 ++ [FsEffect.write (output_dir ++ "/" ++ docname ++ ".rst")
            (subdirectory_rst relp sphinx_project_directory)]))
      (tocStart, [])
    (doc_directories,
     [copyEffect] ++ stepped.2
       ++ [FsEffect.write (output_dir ++ "/user_docs.rst") stepped.1])

/-- Outcome of a Python function call with respect to arity. -/
inductive PyCallResult where
  | ok
  | typeErrorMissingArgs
  deriving DecidableEq, Repr

/-- Python call semantics for a function whose parameters are all required
and positional (no defaults, no varargs): the call succeeds in binding the
arguments exactly when the argument count equals the parameter count, and
otherwise raises `TypeError` before the body runs. -/
def pyCall (param_count arg_count : Nat) : PyCallResult :=
  if arg_count = param_count then PyCallResult.ok else PyCallResult.typeErrorMissingArgs

/-- Parameter count of `include_user_docs` (`include_user_docs.py` lines
47-50): `sphinx_project_directory`, `output_dir`, `package_xml_directory`,
all required positional parameters. -/
def include_user_docs_param_count : Nat := 3

/-- Argument count at the call site in `SphinxBuilder.build`
(`sphinx_builder.py` line 425):
`include_user_docs(package_xml_directory, wrapped_sphinx_directory)`. -/
def build_include_user_docs_arg_count : Nat := 2

/-- The package data used by the build flags: fields of the parsed
`package.xml` object (catkin `Package`), with `is_metapackage` the result of
its `is_metapackage()` method and `build_type` the build type declared in
`package.xml`. -/
structure Package where
  name : String
  build_type : String
  buildtool_depends : List String
  build_depends : List String
  exec_depends : List String
  is_metapackage : Bool
  deriving Repr

/-- The relevant entries of the `settings_dict` parsed from the rosdoc2
configuration (`inspect_package_for_settings.py` lines 196-200):
`settings_dict.get` with the defaults used there. -/
structure Settings where
  override_build_type : Option String
  always_run_doxygen : Bool
  always_run_sphinx_apidoc : Bool
  deriving Repr

/-- Modelled from the spec: `BuildContext` (not under `src/`) initialises
`build_context.build_type` from the build type declared in `package.xml`;
`inspect_package_for_settings.py` line 200 then replaces it with the
`override_build_type` setting when that setting is present
(`settings_dict.get('override_build_type', build_context.build_type)`). -/
def effective_build_type (s : Settings) (package_xml_build_type : String) : String :=
  match s.override_build_type with
  | some t => t
  | none => package_xml_build_type

/-- The body of the `for depends in package['buildtool_depends']` loop of
`inspect_package_for_settings.py` lines 145-147: set the flag when the
dependency stringifies to `ament_cmake_python`. -/
def acpStep (acc : Bool) (d : String) : Bool :=
  if d = "ament_cmake_python" then true else acc

/-- The `ament_cmake_python` detection loop of
`inspect_package_for_settings.py` lines 144-147, starting from the
modelled-from-spec `BuildContext` default of `False`. -/
def ament_cmake_python_flag (buildtool_depends : List String) : Bool :=
  buildtool_depends.foldl acpStep false

/-- The `has_python` flag of `SphinxBuilder.build`
(`sphinx_builder.py` lines 469-471). -/
def has_python_flag (build_type : String) (always_run_sphinx_apidoc ament_cmake_python : Bool) :
    Bool :=
  (build_type == "ament_python") || always_run_sphinx_apidoc || ament_cmake_python

/-- The `has_cpp` flag of `SphinxBuilder.build`
(`sphinx_builder.py` lines 473-474). -/
def has_cpp_flag (build_type : String) (always_run_doxygen : Bool) : Bool :=
  [("ament_cmake"), ("cmake")].contains build_type || always_run_doxygen

/-- The body of the `for subdirectory in subdirectories` loop of
`sphinx_builder.py` lines 485-488: clear the flag when a subdirectory is
not named `doc`. -/
def docdirStep (acc : Bool) (d : String) : Bool :=
  if d ≠ "doc" then false else acc

/-- The metapackage detection of `SphinxBuilder.build`
(`sphinx_builder.py` lines 479-488), with the list of names of the immediate
subdirectories of the `package.xml` directory passed in. -/
def compute_is_meta (pkg : Package) (subdirectories : List String) : Bool :=
  if pkg.build_depends ≠ [] ∨ pkg.exec_depends = [] then false
  else subdirectories.foldl docdirStep true

/-- The `is_meta` template variable (`sphinx_builder.py` line 499):
`is_meta or package.is_metapackage()`. -/
def template_is_meta (pkg : Package) (subdirectories : List String) : Bool :=
  compute_is_meta pkg subdirectories || pkg.is_metapackage

/-- One collected inventory file (`collect_inventory_files` result entry):
the package name it belongs to, the `relative_root` of its
`.location.json` data, and the inventory file path. -/
structure InventoryEntry where
  package_name : String
  relative_root : String
  inventory_file : String
  deriving DecidableEq, Repr

/-- `esc_backslash` (`sphinx_builder.py` lines 37-39): double every
backslash. -/
def esc_backslash (path : String) : String :=
  String.mk (path.data.flatMap (fun c => if c = '\\' then ['\\', '\\'] else [c]))

/-- One rendered entry of the intersphinx mapping
(`sphinx_builder.py` lines 460-462). -/
def intersphinx_entry (base_url : String) (e : InventoryEntry) : String :=
  "'" ++ e.package_name ++ "': ('" ++ base_url ++ "/" ++ e.package_name ++ "/"
    ++ e.relative_root ++ "', '" ++ esc_backslash e.inventory_file ++ "')"

/-- The `intersphinx_mapping_extensions` list comprehension of
`SphinxBuilder.build` (`sphinx_builder.py` lines 459-466): one rendered
entry per collected inventory file, excluding the package being documented
(`if package_name != self.build_context.package.name`). -/
def intersphinx_mapping_extensions (inventory : List InventoryEntry)
    (base_url own_name : String) : List String :=
  inventory.filterMap (fun e =>
    if e.package_name ≠ own_name then some (intersphinx_entry base_url e) else none)

/-- The package names that appear as keys of the generated intersphinx
mapping (the `package_name` rendered at the head of each entry of
`intersphinx_mapping_extensions`). -/
def intersphinx_mapping_keys (inventory : List InventoryEntry) (own_name : String) :
    List String :=
  inventory.filterMap (fun e =>
    if e.package_name ≠ own_name then some e.package_name else none)

/-- The observable steps of `SphinxBuilder.build`
(`sphinx_builder.py` lines 368-573), in source order:
the doxygen XML directory check (lines 371-382), python source resolution
(lines 386-402), `generate_interface_docs` (line 411),
`locate_standard_documents` (line 419), `generate_standard_document_files`
(line 421), the `include_user_docs` call (line 425), sphinx sourcedir
resolution (lines 429-453), `collect_inventory_files` (line 456), the
`index.rst` write, user content copy and wrapping `conf.py` write of
`generate_wrapping_rosdoc2_sphinx_project_into_directory` (lines 631, 642,
675), the `sphinx-apidoc` subprocess (line 526), the `sphinx_main` call
(line 539), the inventory copy (line 556) and the two `.location.json`
writes (lines 566, 569). -/
inductive BuildEvent where
  | checkDoxygenXmlDirectory
  | findPythonSource
  | generateInterfaceDocs
  | locateStandardDocuments
  | generateStandardDocumentFiles
  | includeUserDocs
  | locateSphinxSourcedir
  | generateDefaultProject
  | collectInventoryFiles
  | writeIndexRst
  | copySphinxSources
  | writeWrappingConfPy
  | runSphinxApidoc
  | runSphinxBuild
  | copyInventoryFile
  | writeLocationJson
  deriving DecidableEq, Repr

/-- The exceptions `SphinxBuilder.build` can raise: the `RuntimeError`s of
`sphinx_builder.py` lines 380, 513, 531 and 544, and the `TypeError` raised
by the arity-mismatched `include_user_docs` call at line 425. -/
inductive BuildError where
  | doxygenXmlMissing
  | includeUserDocsTypeError
  | pythonSourceMissing
  | sphinxApidocFailed (returncode : Int)
  | sphinxBuildFailed (returncode : Int)
  deriving DecidableEq, Repr

/-- Which of the build errors are Python `RuntimeError`s (all of them except
the `TypeError` of the arity-mismatched call). -/
def BuildError.isRuntimeError : BuildError → Bool
  | BuildError.includeUserDocsTypeError => false
  | _ => true

/-- The environment a run of `SphinxBuilder.build` observes: which branches
the file system selects, whether the `include_user_docs` call raises, and
the return codes of the two external builder invocations. `has_python` and
`python_src_directory_ok` summarise the flag of lines 469-471 and the checks
of line 512. -/
structure BuildInputs where
  doxygen_xml_directory_specified : Bool
  doxygen_xml_directory_exists : Bool
  always_run_doxygen : Bool
  has_standard_docs : Bool
  include_user_docs_call_raises : Bool
  sphinx_sourcedir_provided : Bool
  standard_sourcedir_found : Bool
  has_python : Bool
  python_src_directory_ok : Bool
  sphinx_apidoc_returncode : Int
  sphinx_build_returncode : Int
  deriving Repr

/-- The tail of `SphinxBuilder.build` from the `sphinx-apidoc` invocation to
the inventory publication (`sphinx_builder.py` lines 510-570): inside
`if has_python`, a missing python source directory raises (lines 512-516),
then `sphinx-apidoc` runs and a nonzero return code raises (lines 526-531);
then `sphinx_main` runs and a nonzero return code raises (lines 539-544);
only after both succeed are the inventory file copied and the two
`.location.json` files written (lines 546-570). -/
def runApidocAndSphinx (has_python python_src_ok : Bool) (apidoc_rc sphinx_rc : Int) :
    List BuildEvent × Except BuildError Unit :=
  if has_python = true ∧ python_src_ok = false then
    ([], Except.error BuildError.pythonSourceMissing)
  else
    let evA := if has_python = true then [BuildEvent.runSphinxApidoc] else []
    if has_python = true ∧ apidoc_rc ≠ 0 then
      (evA, Except.error (BuildError.sphinxApidocFailed apidoc_rc))
    else
      let evB := evA ++ [BuildEvent.runSphinxBuild]
      if sphinx_rc ≠ 0 then
        (evB, Except.error (BuildError.sphinxBuildFailed sphinx_rc))
      else
        (evB ++ [BuildEvent.copyInventoryFile, BuildEvent.writeLocationJson,
                 BuildEvent.writeLocationJson],
         Except.ok ())

/-- The doxygen XML directory check fails (`sphinx_builder.py` lines
376-382): the directory was specified, does not exist, and
`always_run_doxygen` is set. -/
def doxygenCheckFails (i : BuildInputs) : Bool :=
  i.doxygen_xml_directory_specified && !i.doxygen_xml_directory_exists
    && i.always_run_doxygen

/-- The artifact-discovery steps of `SphinxBuilder.build` up to and
including the `include_user_docs` call (`sphinx_builder.py` lines 371-426),
in source order. -/
def discoveryEvents (i : BuildInputs) : List BuildEvent :=
  (if i.doxygen_xml_directory_specified then [BuildEvent.checkDoxygenXmlDirectory] else [])
    ++ [BuildEvent.findPythonSource, BuildEvent.generateInterfaceDocs,
        BuildEvent.locateStandardDocuments]
    ++ (if i.has_standard_docs then [BuildEvent.generateStandardDocumentFiles] else [])
    ++ [BuildEvent.includeUserDocs]

/-- The sphinx sourcedir resolution of `SphinxBuilder.build`
(`sphinx_builder.py` lines 429-453): nothing to do when the user provided a
sourcedir, otherwise the standard locations are probed, and a default
project is generated when that probe also fails. -/
def sourcedirEvents (i : BuildInputs) : List BuildEvent :=
  if i.sphinx_sourcedir_provided then []
  else if i.standard_sourcedir_found then [BuildEvent.locateSphinxSourcedir]
  else [BuildEvent.locateSphinxSourcedir, BuildEvent.generateDefaultProject]

/-- The synthesis steps of
`generate_wrapping_rosdoc2_sphinx_project_into_directory`
(`sphinx_builder.py` lines 615-676): write `index.rst`, copy the user
sphinx sources, write the wrapping `conf.py`. -/
def synthesisEvents : List BuildEvent :=
  [BuildEvent.writeIndexRst, BuildEvent.copySphinxSources, BuildEvent.writeWrappingConfPy]

/-- The step trace of one run of `SphinxBuilder.build`
(`sphinx_builder.py` lines 368-573): the steps performed, in order, and the
outcome. A raised exception truncates the trace at the raising step. -/
def buildTrace (i : BuildInputs) : List BuildEvent × Except BuildError Unit :=
  if doxygenCheckFails i = true then
    ((if i.doxygen_xml_directory_specified then [BuildEvent.checkDoxygenXmlDirectory] else []),
     Except.error BuildError.doxygenXmlMissing)
  else if i.include_user_docs_call_raises = true then
    (discoveryEvents i, Except.error BuildError.includeUserDocsTypeError)
  else
    (discoveryEvents i ++ sourcedirEvents i ++ [BuildEvent.collectInventoryFiles]
       ++ synthesisEvents
       ++ (runApidocAndSphinx i.has_python i.python_src_directory_ok
             i.sphinx_apidoc_returncode i.sphinx_build_returncode).1,
     (runApidocAndSphinx i.has_python i.python_src_directory_ok
        i.sphinx_apidoc_returncode i.sphinx_build_returncode).2)

/-- Phase classification of the build steps named by the discovery →
synthesis → invocation sequence: phase 1 is artifact discovery, phase 2 the
synthesis of the templated configuration into the wrapped sphinx directory,
phase 3 the `sphinx_main` invocation; the remaining steps are not named by
that sequence. -/
def phaseOf : BuildEvent → Option Nat
  | BuildEvent.checkDoxygenXmlDirectory => some 1
  | BuildEvent.generateInterfaceDocs => some 1
  | BuildEvent.locateStandardDocuments => some 1
  | BuildEvent.includeUserDocs => some 1
  | BuildEvent.collectInventoryFiles => some 1
  | BuildEvent.writeIndexRst => some 2
  | BuildEvent.writeWrappingConfPy => some 2
  | BuildEvent.runSphinxBuild => some 3
  | _ => none

/-! ### Helper lemmas -/

theorem acpStep_foldl (l : List String) : ∀ b : Bool,
    l.foldl acpStep b = (b || l.any (fun d => d == "ament_cmake_python")) := by
  induction l with
  | nil => intro b; simp
  | cons d l ih =>
    intro b
    rw [List.foldl_cons, ih, List.any_cons]
    by_cases hd : d = "ament_cmake_python"
    · simp [acpStep, hd]
    · have hb : (d == "ament_cmake_python") = false := by simp [hd]
      simp [acpStep, hd, hb]

theorem docdirStep_foldl (l : List String) : ∀ b : Bool,
    l.foldl docdirStep b = (b && l.all (fun d => d == "doc")) := by
  induction l with
  | nil => intro b; simp
  | cons d l ih =>
    intro b
    rw [List.foldl_cons, ih, List.all_cons]
    by_cases hd : d = "doc"
    · simp [docdirStep, hd]
    · have hb : (d == "doc") = false := by simp [hd]
      simp [docdirStep, hd, hb]

theorem alookup_append_one (n m : String) (d : FoundDoc) (acc : List (String × FoundDoc)) :
    alookup n (acc ++ [(m, d)])
      = if (alookup n acc).isSome then alookup n acc
        else if m = n then some d else none := by
  induction acc with
  | nil => simp [alookup]
  | cons kv rest ih =>
    obtain ⟨k, v⟩ := kv
    by_cases hk : k = n <;> simp [alookup, hk, ih]

theorem alookup_eq_none_iff (n : String) (l : List (String × FoundDoc)) :
    alookup n l = none ↔ n ∉ l.map Prod.fst := by
  induction l with
  | nil => simp [alookup]
  | cons kv rest ih =>
    obtain ⟨k, v⟩ := kv
    by_cases hk : k = n
    · simp [alookup, hk]
    · simp only [alookup, if_neg hk, List.map_cons, List.mem_cons, ih]
      constructor
      · intro hn
        rintro (h | h)
        · exact hk h.symm
        · exact hn h
      · intro hn
        exact fun h => hn (Or.inr h)

theorem insertStep_lookup (b : String) (d : FoundDoc) (acc : List (String × FoundDoc))
    (m n : String) :
    alookup n (insertStep b d acc m)
      = if (alookup n acc).isSome then alookup n acc
        else if ¬(alookup m acc).isSome = true ∧ b = m ∧ m = n then some d else none := by
  unfold insertStep
  by_cases h1 : (alookup m acc).isSome = true
  · rw [if_pos h1]
    cases h : alookup n acc <;> simp [h, h1]
  · rw [if_neg h1]
    by_cases h2 : b = m
    · rw [if_pos h2, alookup_append_one]
      by_cases h3 : (alookup n acc).isSome = true
      · rw [if_pos h3, if_pos h3]
      · rw [if_neg h3, if_neg h3]
        by_cases h4 : m = n
        · rw [if_pos h4, if_pos ⟨h1, h2, h4⟩]
        · rw [if_neg h4, if_neg (fun hc => h4 hc.2.2)]
    · rw [if_neg h2]
      by_cases h3 : (alookup n acc).isSome = true
      · rw [if_pos h3]
      · rw [if_neg h3, if_neg (fun hc => h2 hc.2.1)]
        exact Option.not_isSome_iff_eq_none.mp h3

theorem insertFold_lookup (b : String) (d : FoundDoc) (names : List String) :
    ∀ (acc : List (String × FoundDoc)) (n : String),
      alookup n (names.foldl (insertStep b d) acc)
        = if (alookup n acc).isSome then alookup n acc
          else if n ∈ names ∧ b = n then some d else none := by
  induction names with
  | nil =>
    intro acc n
    cases h : alookup n acc <;> simp [h]
  | cons m ms ih =>
    intro acc n
    rw [List.foldl_cons, ih, insertStep_lookup]
    by_cases h3 : (alookup n acc).isSome = true
    · simp [h3]
    · have h3' : (alookup n acc).isSome = false := by
        revert h3
        cases (alookup n acc).isSome <;> simp
      simp only [h3', Bool.false_eq_true, if_false]
      by_cases hc : ¬(alookup m acc).isSome = true ∧ b = m ∧ m = n
      · rw [if_pos hc]
        simp only [Option.isSome_some, if_true]
        rw [if_pos ⟨hc.2.2 ▸ List.mem_cons_self m ms, hc.2.1.trans hc.2.2⟩]
      · rw [if_neg hc]
        simp only [Option.isSome_none, Bool.false_eq_true, if_false]
        by_cases hd2 : n ∈ ms ∧ b = n
        · rw [if_pos hd2, if_pos ⟨List.mem_cons_of_mem _ hd2.1, hd2.2⟩]
        · rw [if_neg hd2, if_neg ?_]
          rintro ⟨hmem, hb⟩
          rcases List.mem_cons.mp hmem with h | h
          · apply hc
            refine ⟨?_, hb.trans h, h.symm⟩
            rw [← h, h3']
            simp
          · exact hd2 ⟨h, hb⟩

theorem recordItem_lookup (dir : String) (acc : List (String × FoundDoc)) (e : DirEntry)
    (n : String) :
    alookup n (recordItem dir acc e)
      = if (alookup n acc).isSome then alookup n acc
        else if n ∈ standardNames ∧ matchesName e n = true then
          some (docFor dir e.name)
        else none := by
  unfold recordItem
  by_cases hf : e.isFile = false
  · rw [if_pos hf]
    have hm : matchesName e n = false := by simp [matchesName, hf]
    rw [hm]
    cases h : alookup n acc <;> simp [h]
  · rw [if_neg hf, insertFold_lookup]
    have hf' : e.isFile = true := by
      revert hf
      cases e.isFile <;> simp
    have : (n ∈ standardNames ∧ sLower (splitext e.name).1 = n)
        ↔ (n ∈ standardNames ∧ matchesName e n = true) := by
      simp [matchesName, hf']
    rw [if_congr this rfl rfl]

theorem locate_fold_lookup (dir : String) (items : List DirEntry) :
    ∀ (acc : List (String × FoundDoc)) (n : String),
      alookup n (items.foldl (recordItem dir) acc)
        = if (alookup n acc).isSome then alookup n acc
          else if n ∈ standardNames then firstMatch dir items n else none := by
  induction items with
  | nil =>
    intro acc n
    cases h : alookup n acc <;> simp [h, firstMatch]
  | cons e items ih =>
    intro acc n
    rw [List.foldl_cons, ih, recordItem_lookup]
    by_cases h1 : (alookup n acc).isSome = true
    · simp [h1]
    · have h1' : (alookup n acc).isSome = false := by
        revert h1
        cases (alookup n acc).isSome <;> simp
      simp only [h1', Bool.false_eq_true, if_false]
      by_cases h2 : n ∈ standardNames
      · by_cases h3 : matchesName e n = true
        · rw [if_pos ((⟨h2, h3⟩ : n ∈ standardNames ∧ matchesName e n = true))]
          simp only [Option.isSome_some, if_true]
          rw [if_pos h2]
          simp [firstMatch, List.find?_cons, h3]
        · have h3' : matchesName e n = false := by
            revert h3
            cases matchesName e n <;> simp
          rw [if_neg ((fun hc => h3 hc.2 :
            ¬(n ∈ standardNames ∧ matchesName e n = true)))]
          simp only [Option.isSome_none, Bool.false_eq_true, if_false]
          rw [if_pos h2, if_pos h2]
          simp [firstMatch, List.find?_cons, h3']
      · rw [if_neg ((fun hc => h2 hc.1 :
          ¬(n ∈ standardNames ∧ matchesName e n = true)))]
        simp only [Option.isSome_none, Bool.false_eq_true, if_false]
        rw [if_neg h2, if_neg h2]

theorem insertFold_shape (b : String) (d : FoundDoc) (names : List String) :
    ∀ acc : List (String × FoundDoc),
      names.foldl (insertStep b d) acc = acc
      ∨ ∃ m, m ∈ names ∧ alookup m acc = none ∧ b = m
          ∧ names.foldl (insertStep b d) acc = acc ++ [(m, d)] := by
  induction names with
  | nil => intro acc; left; rfl
  | cons m ms ih =>
    intro acc
    rw [List.foldl_cons]
    by_cases h1 : (alookup m acc).isSome
    · rw [insertStep, if_pos h1]
      rcases ih acc with h | ⟨m', hm', hl, hb, he⟩
      · left; exact h
      · right; exact ⟨m', List.mem_cons_of_mem _ hm', hl, hb, he⟩
    · rw [insertStep, if_neg h1]
      by_cases h2 : b = m
      · rw [if_pos h2]
        rcases ih (acc ++ [(m, d)]) with h | ⟨m', hm', hl, hb, _⟩
        · right
          refine ⟨m, List.mem_cons_self m ms, Option.not_isSome_iff_eq_none.mp h1, h2, h⟩
        · exfalso
          have hmm : m' = m := by rw [← hb, h2]
          rw [hmm, alookup_append_one, if_neg h1, if_pos rfl] at hl
          exact Option.some_ne_none d hl
      · rw [if_neg h2]
        rcases ih acc with h | ⟨m', hm', hl, hb, he⟩
        · left; exact h
        · right; exact ⟨m', List.mem_cons_of_mem _ hm', hl, hb, he⟩

theorem recordItem_keys (dir : String) (acc : List (String × FoundDoc)) (e : DirEntry)
    (hn : (acc.map Prod.fst).Nodup) (hs : ∀ k ∈ acc.map Prod.fst, k ∈ standardNames) :
    ((recordItem dir acc e).map Prod.fst).Nodup
      ∧ ∀ k ∈ (recordItem dir acc e).map Prod.fst, k ∈ standardNames := by
  unfold recordItem
  by_cases hf : e.isFile = false
  · rw [if_pos hf]
    exact ⟨hn, hs⟩
  · rw [if_neg hf]
    rcases insertFold_shape (sLower (splitext e.name).1) (docFor dir e.name)
        standardNames acc with h | ⟨m, hm, hl, _, he⟩
    · rw [h]; exact ⟨hn, hs⟩
    · rw [he]
      have hnot : m ∉ acc.map Prod.fst := (alookup_eq_none_iff m acc).mp hl
      constructor
      · rw [List.map_append]
        simp only [List.map_cons, List.map_nil]
        rw [List.nodup_append]
        refine ⟨hn, List.nodup_singleton m, ?_⟩
        intro a ha hb
        rw [List.mem_singleton] at hb
        rw [hb] at ha
        exact hnot ha
      · intro k hk
        rw [List.map_append] at hk
        rcases List.mem_append.mp hk with h | h
        · exact hs k h
        · simp only [List.map_cons, List.map_nil, List.mem_singleton] at h
          rw [h]
          exact hm

theorem locate_fold_keys (dir : String) (items : List DirEntry) :
    ∀ acc : List (String × FoundDoc),
      (acc.map Prod.fst).Nodup → (∀ k ∈ acc.map Prod.fst, k ∈ standardNames) →
      ((items.foldl (recordItem dir) acc).map Prod.fst).Nodup
        ∧ ∀ k ∈ (items.foldl (recordItem dir) acc).map Prod.fst, k ∈ standardNames := by
  induction items with
  | nil => intro acc hn hs; exact ⟨hn, hs⟩
  | cons e items ih =>
    intro acc hn hs
    rw [List.foldl_cons]
    obtain ⟨hn', hs'⟩ := recordItem_keys dir acc e hn hs
    exact ih _ hn' hs'

theorem locate_filter_files (dir : String) (items : List DirEntry) :
    ∀ acc : List (String × FoundDoc),
      (items.filter (fun e => e.isFile)).foldl (recordItem dir) acc
        = items.foldl (recordItem dir) acc := by
  induction items with
  | nil => intro acc; rfl
  | cons e items ih =>
    intro acc
    by_cases he : e.isFile = true
    · rw [List.filter_cons_of_pos he, List.foldl_cons, List.foldl_cons, ih]
    · have he' : e.isFile = false := by
        revert he
        cases e.isFile <;> simp
      rw [List.filter_cons_of_neg (by simp [he']), List.foldl_cons, ih]
      have : recordItem dir acc e = acc := by
        rw [recordItem, if_pos he']
      rw [this]

/-! ### C9. At most one record per standard name, first match kept -/

/-- C9: `locate_standard_documents` keeps, for each standard name, exactly
the first file in directory-enumeration order whose lowercased basename
equals that name (later matches for an already-recorded name are skipped),
and the returned dictionary has at most five entries. -/
theorem locate_standard_documents_first_match (dir : String) (items : List DirEntry) :
    (∀ n, alookup n (locate_standard_documents dir items)
        = if n ∈ standardNames then firstMatch dir items n else none) ∧
    (locate_standard_documents dir items).length ≤ 5 := by
  unfold locate_standard_documents
  constructor
  · intro n
    rw [locate_fold_lookup]
    simp [alookup]
  · have h := locate_fold_keys dir items [] (by simp) (by simp)
    have hlen : ((items.foldl (recordItem dir) []).map Prod.fst).length
        ≤ standardNames.length := by
      apply List.Subperm.length_le
      apply List.subperm_of_subset h.1
      intro a ha
      exact h.2 a ha
    rw [List.length_map] at hlen
    simpa using hlen

/-! ### C4. Classification of located standard documents -/

/-- C4: the keys of the returned dictionary are a subset of the five
standard names; a name is recorded exactly when some regular file directly
in the directory has that lowercased basename; the recorded value carries
the file name, its path, and the type determined by the lowercased
extension (`md` for `.md`/`.markdown`, `rst` for `.rst`, `other`
otherwise); and non-file entries never contribute. -/
theorem locate_standard_documents_classifies (dir : String) (items : List DirEntry) :
    (∀ n v, alookup n (locate_standard_documents dir items) = some v → n ∈ standardNames) ∧
    (∀ n, n ∈ standardNames →
      ((alookup n (locate_standard_documents dir items)).isSome = true
        ↔ ∃ e, e ∈ items ∧ e.isFile = true ∧ sLower (splitext e.name).1 = n)) ∧
    (∀ n v, alookup n (locate_standard_documents dir items) = some v →
      ∃ e, e ∈ items ∧ e.isFile = true ∧ sLower (splitext e.name).1 = n
        ∧ v.filename = e.name ∧ v.path = dir ++ "/" ++ e.name
        ∧ v.filetype
            = (if sLower (splitext e.name).2 = ".md"
                  ∨ sLower (splitext e.name).2 = ".markdown" then ("md")
               else if sLower (splitext e.name).2 = ".rst" then ("rst")
               else ("other"))) ∧
    locate_standard_documents dir (items.filter (fun e => e.isFile))
      = locate_standard_documents dir items := by
  refine ⟨?_, ?_, ?_, ?_⟩
  · intro n v hv
    unfold locate_standard_documents at hv
    rw [locate_fold_lookup] at hv
    simp only [alookup, Option.isSome_none, Bool.false_eq_true, if_false] at hv
    by_cases h : n ∈ standardNames
    · exact h
    · rw [if_neg h] at hv
      exact absurd hv (by simp)
  · intro n hn
    unfold locate_standard_documents
    rw [locate_fold_lookup]
    simp only [alookup, Option.isSome_none, Bool.false_eq_true, if_false, if_pos hn]
    rw [firstMatch]
    constructor
    · intro hsome
      have hfind : (items.find? (fun e => matchesName e n)).isSome = true := by
        cases hf : items.find? (fun e => matchesName e n) with
        | none => rw [hf] at hsome; simp at hsome
        | some e => simp
      rw [List.find?_isSome] at hfind
      obtain ⟨e, he, hp⟩ := hfind
      rw [matchesName, Bool.and_eq_true, decide_eq_true_eq] at hp
      exact ⟨e, he, hp.1, hp.2⟩
    · rintro ⟨e, he, hf, hlow⟩
      have : (items.find? (fun e => matchesName e n)).isSome = true := by
        rw [List.find?_isSome]
        refine ⟨e, he, ?_⟩
        rw [matchesName, Bool.and_eq_true, decide_eq_true_eq]
        exact ⟨hf, hlow⟩
      cases hf2 : items.find? (fun e => matchesName e n) with
      | none => rw [hf2] at this; simp at this
      | some e2 => simp
  · intro n v hv
    unfold locate_standard_documents at hv
    rw [locate_fold_lookup] at hv
    simp only [alookup, Option.isSome_none, Bool.false_eq_true, if_false] at hv
    by_cases hn : n ∈ standardNames
    · rw [if_pos hn, firstMatch] at hv
      cases hfind : items.find? (fun e => matchesName e n) with
      | none =>
        rw [hfind] at hv
        exact absurd hv (by simp)
      | some e =>
        rw [hfind] at hv
        simp only [Option.map_some'] at hv
        have hp := List.find?_some hfind
        have hmem := List.mem_of_find?_eq_some hfind
        rw [matchesName, Bool.and_eq_true, decide_eq_true_eq] at hp
        have hveq : docFor dir e.name = v := Option.some_injective _ hv
        refine ⟨e, hmem, hp.1, hp.2, ?_, ?_, ?_⟩
        · rw [← hveq]
          rfl
        · rw [← hveq]
          rfl
        · rw [← hveq]
          rfl

    · rw [if_neg hn] at hv
      exact absurd hv (by simp)
  · unfold locate_standard_documents
    exact locate_filter_files dir items []

/-- Witness for C4 at a concrete listing: `README.md` is recorded under
`readme` with type `md`, and the `doc` directory entry contributes
nothing. -/
theorem locate_standard_documents_classifies_witness :
    ∃ e, e ∈ [DirEntry.mk ("README.md") true, DirEntry.mk ("doc") false]
      ∧ e.isFile = true ∧ sLower (splitext e.name).1 = "readme"
      ∧ (FoundDoc.mk ("/p" ++ "/" ++ "README.md") ("README.md") ("md")).filename = e.name
      ∧ (FoundDoc.mk ("/p" ++ "/" ++ "README.md") ("README.md") ("md")).path
          = "/p" ++ "/" ++ e.name
      ∧ (FoundDoc.mk ("/p" ++ "/" ++ "README.md") ("README.md") ("md")).filetype
          = (if sLower (splitext e.name).2 = ".md"
                ∨ sLower (splitext e.name).2 = ".markdown" then ("md")
             else if sLower (splitext e.name).2 = ".rst" then ("rst")
             else ("other")) :=
  (locate_standard_documents_classifies ("/p")
      [DirEntry.mk ("README.md") true, DirEntry.mk ("doc") false]).2.2.1
    ("readme") (FoundDoc.mk ("/p" ++ "/" ++ "README.md") ("README.md") ("md"))
    (by decide)

/-! ### C1. The user-documentation step of the build -/

/-- C1: the user-documentation step of `SphinxBuilder.build` does not
complete: the call `include_user_docs(package_xml_directory,
wrapped_sphinx_directory)` at `sphinx_builder.py` line 425 passes two
arguments to the three-parameter function `include_user_docs`
(`include_user_docs.py` lines 47-50, all parameters required positional),
so Python raises `TypeError` before the user documentation tree is examined
or copied; the claimed error-free completion fails on every execution. -/
theorem build_include_user_docs_call_raises :
    pyCall include_user_docs_param_count build_include_user_docs_arg_count
      = PyCallResult.typeErrorMissingArgs := by
  decide

/-! ### C6. The has_python and has_cpp flags -/

/-- C6: with the effective build type resolved from `override_build_type`
when present and the `package.xml` build type otherwise, `has_python` holds
exactly when the effective build type is `ament_python`, or
`always_run_sphinx_apidoc` is set, or the package buildtool-depends on
`ament_cmake_python`; and `has_cpp` holds exactly when the effective build
type is `ament_cmake` or `cmake`, or `always_run_doxygen` is set. -/
theorem build_type_flags_spec (pkg : Package) (s : Settings) :
    (has_python_flag (effective_build_type s pkg.build_type) s.always_run_sphinx_apidoc
        (ament_cmake_python_flag pkg.buildtool_depends) = true
      ↔ (effective_build_type s pkg.build_type = "ament_python"
          ∨ s.always_run_sphinx_apidoc = true
          ∨ ("ament_cmake_python") ∈ pkg.buildtool_depends)) ∧
    (has_cpp_flag (effective_build_type s pkg.build_type) s.always_run_doxygen = true
      ↔ ((effective_build_type s pkg.build_type = "ament_cmake"
          ∨ effective_build_type s pkg.build_type = "cmake")
          ∨ s.always_run_doxygen = true)) ∧
    (∀ t, s.override_build_type = some t → effective_build_type s pkg.build_type = t) ∧
    (s.override_build_type = none → effective_build_type s pkg.build_type = pkg.build_type) := by
  refine ⟨?_, ?_, ?_, ?_⟩
  · rw [has_python_flag, ament_cmake_python_flag, acpStep_foldl]
    simp only [Bool.false_or, Bool.or_eq_true, beq_iff_eq, List.any_eq_true]
    constructor
    · rintro ((h | h) | ⟨d, hd, he⟩)
      · exact Or.inl h
      · exact Or.inr (Or.inl h)
      · exact Or.inr (Or.inr (he ▸ hd))
    · rintro (h | h | h)
      · exact Or.inl (Or.inl h)
      · exact Or.inl (Or.inr h)
      · exact Or.inr ⟨_, h, rfl⟩
  · rw [has_cpp_flag, List.contains_eq_any_beq]
    simp only [List.any_cons, List.any_nil, Bool.or_false, Bool.or_eq_true, beq_iff_eq]
  · intro t ht; simp [effective_build_type, ht]
  · intro ht; simp [effective_build_type, ht]

/-- Witness for C6 at a concrete package and settings: the override is
taken, and the buildtool-dependency makes `has_python` true. -/
theorem build_type_flags_spec_witness :
    effective_build_type ⟨some ("cmake"), false, false⟩ "ament_python" = "cmake"
    ∧ has_python_flag
        (effective_build_type ⟨some ("cmake"), false, false⟩ "ament_python") false
        (ament_cmake_python_flag [("ament_cmake_python")]) = true :=
  ⟨(build_type_flags_spec
      ⟨"pkg", "ament_python", [("ament_cmake_python")], [], [], false⟩
      ⟨some ("cmake"), false, false⟩).2.2.1 ("cmake") rfl,
   (build_type_flags_spec
      ⟨"pkg", "ament_python", [("ament_cmake_python")], [], [], false⟩
      ⟨some ("cmake"), false, false⟩).1.mpr (Or.inr (Or.inr (by decide)))⟩

/-! ### C7. Metapackage detection -/

/-- C7: the `is_meta` template variable is true exactly when the package is
a metapackage, or it has no build dependencies, at least one exec
dependency, and every immediate subdirectory of the `package.xml` directory
is named `doc`. -/
theorem is_meta_spec (pkg : Package) (subdirectories : List String) :
    template_is_meta pkg subdirectories = true
      ↔ (pkg.is_metapackage = true
          ∨ (pkg.build_depends = [] ∧ pkg.exec_depends ≠ []
              ∧ ∀ d ∈ subdirectories, d = "doc")) := by
  unfold template_is_meta compute_is_meta
  by_cases h : pkg.build_depends ≠ [] ∨ pkg.exec_depends = []
  · rw [if_pos h]
    simp only [Bool.false_or]
    constructor
    · intro hm; exact Or.inl hm
    · rintro (hm | ⟨h1, h2, _⟩)
      · exact hm
      · rcases h with h | h
        · exact absurd h1 h
        · exact absurd h h2
  · rw [if_neg h, docdirStep_foldl]
    push_neg at h
    simp only [Bool.true_and, Bool.or_eq_true, List.all_eq_true, beq_iff_eq]
    constructor
    · rintro (hall | hm)
      · exact Or.inr ⟨h.1, h.2, hall⟩
      · exact Or.inl hm
    · rintro (hm | ⟨_, _, hall⟩)
      · exact Or.inr hm
      · exact Or.inl hall

/-- Witness for C7: a package with only exec dependencies and a lone `doc`
subdirectory counts as meta. -/
theorem is_meta_spec_witness :
    template_is_meta ⟨"pkg", "ament_cmake", [], [], [("ros_base")], false⟩ [("doc")] = true :=
  (is_meta_spec ⟨"pkg", "ament_cmake", [], [], [("ros_base")], false⟩ [("doc")]).mpr
    (Or.inr ⟨rfl, by decide, by decide⟩)

/-! ### C8. The intersphinx mapping excludes the documented package -/

/-- C8: every rendered intersphinx mapping entry comes from a collected
inventory file whose package name differs from the package being
documented, and the documented package's own name never appears among the
mapping keys. -/
theorem intersphinx_excludes_self (inventory : List InventoryEntry)
    (base_url own_name : String) :
    (∀ s ∈ intersphinx_mapping_extensions inventory base_url own_name,
      ∃ e ∈ inventory, e.package_name ≠ own_name ∧ s = intersphinx_entry base_url e) ∧
    own_name ∉ intersphinx_mapping_keys inventory own_name := by
  constructor
  · intro s hs
    rw [intersphinx_mapping_extensions, List.mem_filterMap] at hs
    obtain ⟨e, he, hcond⟩ := hs
    by_cases hne : e.package_name = own_name
    · rw [if_neg (by simp [hne])] at hcond
      exact absurd hcond (by simp)
    · rw [if_pos hne] at hcond
      exact ⟨e, he, hne, (Option.some_injective _ hcond).symm⟩
  · intro hmem
    rw [intersphinx_mapping_keys, List.mem_filterMap] at hmem
    obtain ⟨e, he, hcond⟩ := hmem
    by_cases hne : e.package_name = own_name
    · rw [if_neg (by simp [hne])] at hcond
      exact absurd hcond (by simp)
    · rw [if_pos hne] at hcond
      exact hne (Option.some_injective _ hcond)

/-- Witness for C8: with one foreign inventory entry, the rendered entry is
accounted for by that entry. -/
theorem intersphinx_excludes_self_witness :
    ∃ e ∈ [InventoryEntry.mk ("other") ("r") ("f")],
      e.package_name ≠ "me"
        ∧ intersphinx_entry ("http://u") (InventoryEntry.mk ("other") ("r") ("f"))
            = intersphinx_entry ("http://u") e :=
  (intersphinx_excludes_self [InventoryEntry.mk ("other") ("r") ("f")] ("http://u") ("me")).1
    (intersphinx_entry ("http://u") (InventoryEntry.mk ("other") ("r") ("f")))
    (by simp [intersphinx_mapping_extensions])

theorem runApidocAndSphinx_phases (hp pso : Bool) (arc src : Int) :
    ((runApidocAndSphinx hp pso arc src).1.filterMap phaseOf = []
      ∨ (runApidocAndSphinx hp pso arc src).1.filterMap phaseOf = [3])
    ∧ (runApidocAndSphinx hp pso arc src).1.count BuildEvent.runSphinxBuild ≤ 1
    ∧ ((runApidocAndSphinx hp pso arc src).2 = Except.ok ()
        → (runApidocAndSphinx hp pso arc src).1.count BuildEvent.runSphinxBuild = 1) := by
  cases hp <;> cases pso <;> by_cases h1 : arc = 0 <;> by_cases h2 : src = 0 <;>
    simp_all [runApidocAndSphinx, phaseOf]

theorem discoveryEvents_phases (i : BuildInputs) :
    (discoveryEvents i).filterMap phaseOf
      = (if i.doxygen_xml_directory_specified then [1, 1, 1, 1] else [1, 1, 1]) := by
  cases hd : i.doxygen_xml_directory_specified <;>
    cases hs : i.has_standard_docs <;>
      simp [discoveryEvents, phaseOf, hd, hs]

theorem sourcedirEvents_phases (i : BuildInputs) :
    (sourcedirEvents i).filterMap phaseOf = [] := by
  unfold sourcedirEvents
  split_ifs <;> simp [phaseOf]

theorem discoveryEvents_count (i : BuildInputs) :
    (discoveryEvents i).count BuildEvent.runSphinxBuild = 0 := by
  cases hd : i.doxygen_xml_directory_specified <;>
    cases hs : i.has_standard_docs <;>
      simp [discoveryEvents, hd, hs]

theorem sourcedirEvents_count (i : BuildInputs) :
    (sourcedirEvents i).count BuildEvent.runSphinxBuild = 0 := by
  unfold sourcedirEvents
  split_ifs <;> rfl

/-! ### C2. Error handling around the external builder invocations -/

/-- C2: in the tail of `SphinxBuilder.build`, the `sphinx-apidoc` subprocess
and the `sphinx_main` invocation each raise a `RuntimeError` exactly when
their return code is nonzero, the build stops at the first such failure (in
particular no inventory file is copied and no `.location.json` file is
written on failure), and on zero return codes execution continues through
the publication steps. -/
theorem sphinx_subprocess_error_handling (has_python python_src_ok : Bool)
    (apidoc_rc sphinx_rc : Int) :
    (∀ e, (runApidocAndSphinx has_python python_src_ok apidoc_rc sphinx_rc).2
        = Except.error e → e.isRuntimeError = true) ∧
    (has_python = true → python_src_ok = true →
      (((runApidocAndSphinx has_python python_src_ok apidoc_rc sphinx_rc).2
          = Except.error (BuildError.sphinxApidocFailed apidoc_rc)) ↔ apidoc_rc ≠ 0)) ∧
    (has_python = true → apidoc_rc ≠ 0 →
      BuildEvent.runSphinxBuild
          ∉ (runApidocAndSphinx has_python python_src_ok apidoc_rc sphinx_rc).1
      ∧ BuildEvent.copyInventoryFile
          ∉ (runApidocAndSphinx has_python python_src_ok apidoc_rc sphinx_rc).1
      ∧ BuildEvent.writeLocationJson
          ∉ (runApidocAndSphinx has_python python_src_ok apidoc_rc sphinx_rc).1) ∧
    ((has_python = true → python_src_ok = true ∧ apidoc_rc = 0) →
      BuildEvent.runSphinxBuild
          ∈ (runApidocAndSphinx has_python python_src_ok apidoc_rc sphinx_rc).1
      ∧ (((runApidocAndSphinx has_python python_src_ok apidoc_rc sphinx_rc).2
            = Except.error (BuildError.sphinxBuildFailed sphinx_rc)) ↔ sphinx_rc ≠ 0)) ∧
    (sphinx_rc ≠ 0 →
      BuildEvent.copyInventoryFile
          ∉ (runApidocAndSphinx has_python python_src_ok apidoc_rc sphinx_rc).1
      ∧ BuildEvent.writeLocationJson
          ∉ (runApidocAndSphinx has_python python_src_ok apidoc_rc sphinx_rc).1) ∧
    ((has_python = true → python_src_ok = true ∧ apidoc_rc = 0) → sphinx_rc = 0 →
      (runApidocAndSphinx has_python python_src_ok apidoc_rc sphinx_rc).2 = Except.ok ()
      ∧ BuildEvent.copyInventoryFile
          ∈ (runApidocAndSphinx has_python python_src_ok apidoc_rc sphinx_rc).1
      ∧ ((runApidocAndSphinx has_python python_src_ok apidoc_rc sphinx_rc).1.count
            BuildEvent.writeLocationJson = 2)) := by
  cases has_python <;> cases python_src_ok <;>
    by_cases h1 : apidoc_rc = 0 <;> by_cases h2 : sphinx_rc = 0 <;>
      simp_all [runApidocAndSphinx, BuildError.isRuntimeError]

/-- Witness for C2 at zero return codes with python sources present: the
build continues, copies the inventory file and writes both location
files. -/
theorem sphinx_subprocess_error_handling_witness :
    (runApidocAndSphinx true true 0 0).2 = Except.ok ()
    ∧ BuildEvent.copyInventoryFile ∈ (runApidocAndSphinx true true 0 0).1
    ∧ ((runApidocAndSphinx true true 0 0).1.count BuildEvent.writeLocationJson = 2) :=
  (sphinx_subprocess_error_handling true true 0 0).2.2.2.2.2
    (fun _ => ⟨rfl, rfl⟩) rfl

/-! ### C3. Discovery, synthesis, invocation, in that order -/

/-- C3: along every run of `SphinxBuilder.build`, the artifact-discovery
steps (the doxygen XML check, `generate_interface_docs`,
`locate_standard_documents`, the user-doc inclusion and the inventory-file
collection) all precede the synthesis steps (the `index.rst` and the
wrapping `conf.py` written into the wrapped sphinx directory), which
precede the `sphinx_main` invocation; `sphinx_main` is invoked at most
once, and exactly once on a successful run. -/
theorem build_discovery_synthesis_invoke_order (i : BuildInputs) :
    ((buildTrace i).1.filterMap phaseOf).Pairwise (· ≤ ·)
    ∧ (buildTrace i).1.count BuildEvent.runSphinxBuild ≤ 1
    ∧ ((buildTrace i).2 = Except.ok ()
        → (buildTrace i).1.count BuildEvent.runSphinxBuild = 1) := by
  unfold buildTrace
  by_cases hdox : doxygenCheckFails i = true
  · rw [if_pos hdox]
    cases hd : i.doxygen_xml_directory_specified <;> simp [phaseOf]
  · rw [if_neg hdox]
    by_cases hiur : i.include_user_docs_call_raises = true
    · rw [if_pos hiur]
      refine ⟨?_, ?_, ?_⟩
      · rw [discoveryEvents_phases]
        split_ifs <;> decide
      · rw [discoveryEvents_count]
        decide
      · intro h
        simp at h
    · rw [if_neg hiur]
      refine ⟨?_, ?_, ?_⟩
      · show (List.filterMap phaseOf
            (discoveryEvents i ++ sourcedirEvents i ++ [BuildEvent.collectInventoryFiles]
              ++ synthesisEvents
              ++ (runApidocAndSphinx i.has_python i.python_src_directory_ok
                    i.sphinx_apidoc_returncode i.sphinx_build_returncode).1)).Pairwise (· ≤ ·)
        rw [List.filterMap_append, List.filterMap_append, List.filterMap_append,
          List.filterMap_append, discoveryEvents_phases, sourcedirEvents_phases]
        have hc : List.filterMap phaseOf [BuildEvent.collectInventoryFiles] = [1] := rfl
        have hsy : List.filterMap phaseOf synthesisEvents = [2, 2] := rfl
        rcases (runApidocAndSphinx_phases i.has_python i.python_src_directory_ok
            i.sphinx_apidoc_returncode i.sphinx_build_returncode).1 with ht | ht <;>
          rw [ht, hc, hsy] <;> cases hd : i.doxygen_xml_directory_specified <;> decide
      · show (List.count BuildEvent.runSphinxBuild
            (discoveryEvents i ++ sourcedirEvents i ++ [BuildEvent.collectInventoryFiles]
              ++ synthesisEvents
              ++ (runApidocAndSphinx i.has_python i.python_src_directory_ok
                    i.sphinx_apidoc_returncode i.sphinx_build_returncode).1)) ≤ 1
        rw [List.count_append, List.count_append, List.count_append, List.count_append,
          discoveryEvents_count, sourcedirEvents_count]
        have ht := (runApidocAndSphinx_phases i.has_python i.python_src_directory_ok
          i.sphinx_apidoc_returncode i.sphinx_build_returncode).2.1
        have hc1 : List.count BuildEvent.runSphinxBuild [BuildEvent.collectInventoryFiles]
            = 0 := rfl
        have hc2 : List.count BuildEvent.runSphinxBuild synthesisEvents = 0 := rfl
        rw [hc1, hc2]
        omega
      · show (runApidocAndSphinx i.has_python i.python_src_directory_ok
              i.sphinx_apidoc_returncode i.sphinx_build_returncode).2 = Except.ok ()
          → (List.count BuildEvent.runSphinxBuild
              (discoveryEvents i ++ sourcedirEvents i ++ [BuildEvent.collectInventoryFiles]
                ++ synthesisEvents
                ++ (runApidocAndSphinx i.has_python i.python_src_directory_ok
                      i.sphinx_apidoc_returncode i.sphinx_build_returncode).1)) = 1
        intro hok
        rw [List.count_append, List.count_append, List.count_append, List.count_append,
          discoveryEvents_count, sourcedirEvents_count]
        have ht := (runApidocAndSphinx_phases i.has_python i.python_src_directory_ok
          i.sphinx_apidoc_returncode i.sphinx_build_returncode).2.2 hok
        have hc1 : List.count BuildEvent.runSphinxBuild [BuildEvent.collectInventoryFiles]
            = 0 := rfl
        have hc2 : List.count BuildEvent.runSphinxBuild synthesisEvents = 0 := rfl
        rw [hc1, hc2]
        omega

/-- Witness for C3 at a successful run: the trace invokes `sphinx_main`
exactly once. -/
theorem build_discovery_synthesis_invoke_order_witness :
    (buildTrace ⟨true, true, false, true, false, false, false, true, true, 0, 0⟩).1.count
      BuildEvent.runSphinxBuild = 1 :=
  (build_discovery_synthesis_invoke_order
    ⟨true, true, false, true, false, false, false, true, true, 0, 0⟩).2.2 rfl

/-! ### C5. Generation of the standard document files -/

/-- C5: `generate_standard_document_files` writes `standards.rst` into the
wrapped sphinx directory if and only if the set of located standard
documents is non-empty; it copies each original document into
`standard_docs/original/`, and for each located name `k` writes
`standard_docs/K.rst` (`K` being `k` uppercased) whose title `K` is
underlined by `len(k)` right-parenthesis characters, followed by an
`include` directive of the copied file for type `rst`, an `include`
directive with the `myst_parser` option for type `md`, and a
`literalinclude` directive for any other type. -/
theorem generate_standard_document_files_spec (docs : List (String × FoundDoc))
    (wrapped : String) :
    ((FsEffect.write (wrapped ++ "/standards.rst") standard_documents_rst
        ∈ generate_standard_document_files docs wrapped) ↔ docs ≠ []) ∧
    (∀ k d, (k, d) ∈ docs →
      FsEffect.copy d.path (wrapped ++ "/standard_docs" ++ "/original")
          ∈ generate_standard_document_files docs wrapped
      ∧ FsEffect.write (wrapped ++ "/standard_docs" ++ "/" ++ sUpper k ++ ".rst")
          ((sUpper k ++ "\n" ++ String.mk (List.replicate k.length ')') ++ "\n\n")
            ++ (if d.filetype = "rst" then ".. include:: " ++ ("original/" ++ d.filename) ++ "\n"
                else if d.filetype = "md" then
                  ".. include:: " ++ ("original/" ++ d.filename) ++ "\n"
                    ++ "   :parser: myst_parser.sphinx_\n"
                else ".. literalinclude:: " ++ ("original/" ++ d.filename) ++ "\n"))
          ∈ generate_standard_document_files docs wrapped) := by
  constructor
  · constructor
    · intro hmem hnil
      rw [hnil] at hmem
      simp [generate_standard_document_files] at hmem
    · intro hne
      have hlen : docs.length ≠ 0 := by
        intro h0
        exact hne (List.length_eq_zero.mp h0)
      simp only [generate_standard_document_files]
      rw [if_pos hlen]
      exact List.mem_append_left _ (by simp)
  · intro k d hkd
    constructor
    · simp only [generate_standard_document_files]
      refine List.mem_append_right _ ?_
      rw [List.mem_flatMap]
      exact ⟨(k, d), hkd, by simp⟩
    · simp only [generate_standard_document_files]
      refine List.mem_append_right _ ?_
      rw [List.mem_flatMap]
      exact ⟨(k, d), hkd, by simp⟩

/-- Witness for C5 at one located readme of type `md`: `standards.rst` is
written, the original is copied, and `README.rst` carries the
myst-parser include. -/
theorem generate_standard_document_files_spec_witness :
    (FsEffect.write ("/w" ++ "/standards.rst") standard_documents_rst
      ∈ generate_standard_document_files
          [(("readme"), FoundDoc.mk ("/p/README.md") ("README.md") ("md"))] ("/w"))
    ∧ FsEffect.copy ("/p/README.md") ("/w" ++ "/standard_docs" ++ "/original")
        ∈ generate_standard_document_files
            [(("readme"), FoundDoc.mk ("/p/README.md") ("README.md") ("md"))] ("/w") :=
  ⟨(generate_standard_document_files_spec
      [(("readme"), FoundDoc.mk ("/p/README.md") ("README.md") ("md"))] ("/w")).1.mpr
        (by decide),
   ((generate_standard_document_files_spec
      [(("readme"), FoundDoc.mk ("/p/README.md") ("README.md") ("md"))] ("/w")).2
        ("readme") (FoundDoc.mk ("/p/README.md") ("README.md") ("md"))
        (List.mem_singleton.mpr rfl)).1⟩

/-! ### C10. include_user_docs with no renderable files -/

/-- C10: when no file anywhere under the user documentation directory has
extension exactly `.rst`, `.md` or `.markdown` (the comparison is
case-sensitive), `include_user_docs` returns the empty list and performs no
file-system effect: nothing is copied and neither `user_docs.rst` nor any
per-subdirectory rst file is created. -/
theorem include_user_docs_no_renderable
    (sphinx_project_directory output_dir package_xml_directory : String)
    (walk : List (String × List String)) (relpath : String → String → String)
    (slugify : String → String)
    (h : ∀ rf ∈ walk, ∀ f ∈ rf.2, renderableExt (splitext f).2 = false) :
    include_user_docs sphinx_project_directory output_dir package_xml_directory
      walk relpath slugify = ([], []) := by
  have hd : walk.flatMap (fun rootFiles =>
      if rootFiles.2.any (fun file => renderableExt (splitext file).2) then
        [relpath rootFiles.1 (package_xml_directory ++ "/" ++ sphinx_project_directory)]
      else []) = [] := by
    rw [List.flatMap_eq_nil_iff]
    intro rf hrf
    have hfalse : rf.2.any (fun file => renderableExt (splitext file).2) = false := by
      rw [List.any_eq_false]
      intro f hf
      simp [h rf hrf f hf]
    rw [hfalse]
    simp
  simp only [include_user_docs]
  rw [hd]
  simp

/-- Witness for C10: a walk containing an image and an uppercase `.MD` file
(not matched by the case-sensitive test) yields no output at all. -/
theorem include_user_docs_no_renderable_witness :
    include_user_docs ("doc") ("/out") ("/pkg")
      [("/pkg/doc", [("image.png"), ("README.MD")])]
      (fun r _ => r) (fun s => s) = ([], []) :=
  include_user_docs_no_renderable ("doc") ("/out") ("/pkg")
    [("/pkg/doc", [("image.png"), ("README.MD")])]
    (fun r _ => r) (fun s => s) (by decide)

end Rosdoc2

